import Mathlib

/-
  Verification of the TwitCanva video-workflow editor core against its
  natural-language specification.

  The definitions below are a shallow embedding of the TypeScript source:

  * src/src/hooks/useHistory.ts           — past/present/future history engine
  * src/src/components/modals/ImageEditorModal.tsx
                                          — compositor and node persistence
  * src/unnamed/part_003 (assetService.ts, useGenerationRecovery.ts)
                                          — asset upload and status polling

  JavaScript arrays become List, strings become String, numbers become
  Nat or Int, `undefined`/`null` become Option, exceptions become Except.
  The JSON.stringify deep-equality test in pushHistory is modelled as
  structural equality on the snapshot type, which is kept abstract.
-/

namespace TwitCanva

-- ===========================================================================
-- History engine: src/src/hooks/useHistory.ts
-- ===========================================================================

/-- State of the useHistory hook: the past stack, the present snapshot and
the future (redo) stack, exactly the three useState cells of the hook. -/
structure HistoryState (T : Type) where
  past : List T
  present : T
  future : List T
deriving Repr, DecidableEq

/-- JavaScript Array.prototype.slice with a single argument, as used by
pushHistory (past.slice(-maxHistorySize + 1)).  A negative start counts
from the end of the array; a start beyond either end clamps. -/
def jsSlice {T : Type} (l : List T) (start : Int) : List T :=
  if start < 0 then l.drop (l.length - start.natAbs) else l.drop start.toNat

/-- undo from useHistory.ts: no-op when the past stack is empty, otherwise
pop the most recent past entry into present and push the old present onto
the front of the future stack. -/
def undo {T : Type} (st : HistoryState T) : HistoryState T :=
  match st.past.getLast? with
  | none => st
  | some previous =>
      { past := st.past.dropLast
        present := previous
        future := st.present :: st.future }

/-- redo from useHistory.ts: no-op when the future stack is empty, otherwise
take the head of the future stack as present and append the old present to
the past stack. -/
def redo {T : Type} (st : HistoryState T) : HistoryState T :=
  match st.future with
  | [] => st
  | next :: rest =>
      { past := st.past ++ [st.present]
        present := next
        future := rest }

/-- pushHistory from useHistory.ts: skip when the new snapshot equals the
present one (the source compares JSON.stringify images; modelled as
structural equality), otherwise append present to the size-limited past
stack, set the new present and clear the redo stack. -/
def pushHistory {T : Type} [DecidableEq T] (maxHistorySize : Nat) (newState : T)
    (st : HistoryState T) : HistoryState T :=
  if newState = st.present then st
  else
    { past := jsSlice st.past (-(maxHistorySize : Int) + 1) ++ [st.present]
      present := newState
      future := [] }

/-- reset from useHistory.ts: clear both stacks and install the new present. -/
def reset {T : Type} (newState : T) (_st : HistoryState T) : HistoryState T :=
  { past := [], present := newState, future := [] }

/-- canUndo computed value: the past stack is nonempty. -/
def canUndo {T : Type} (st : HistoryState T) : Prop :=
  st.past.length > 0

/-- canRedo computed value: the future stack is nonempty. -/
def canRedo {T : Type} (st : HistoryState T) : Prop :=
  st.future.length > 0

instance {T : Type} (st : HistoryState T) : Decidable (canUndo st) := by
  unfold canUndo; infer_instance

instance {T : Type} (st : HistoryState T) : Decidable (canRedo st) := by
  unfold canRedo; infer_instance

/-- The hook state as first initialised: useState([]) twice and
useState(initialState). -/
def initialHistory {T : Type} (initialState : T) : HistoryState T :=
  { past := [], present := initialState, future := [] }

/-- One user-level operation on the history hook. -/
inductive HistOp (T : Type) where
  | push (s : T)
  | undoOp
  | redoOp
deriving Repr, DecidableEq

/-- Apply one operation to a history state. -/
def applyHistOp {T : Type} [DecidableEq T] (maxHistorySize : Nat)
    (st : HistoryState T) (op : HistOp T) : HistoryState T :=
  match op with
  | .push s => pushHistory maxHistorySize s st
  | .undoOp => undo st
  | .redoOp => redo st

/-- Run a sequence of operations from the initial hook state. -/
def runHistOps {T : Type} [DecidableEq T] (maxHistorySize : Nat)
    (initialState : T) (ops : List (HistOp T)) : HistoryState T :=
  ops.foldl (applyHistOp maxHistorySize) (initialHistory initialState)

/-- Push a list of snapshots in order. -/
def pushList {T : Type} [DecidableEq T] (maxHistorySize : Nat)
    (l : List T) (st : HistoryState T) : HistoryState T :=
  l.foldl (fun s x => pushHistory maxHistorySize x s) st

/-- Apply undo n times. -/
def undoN {T : Type} : Nat → HistoryState T → HistoryState T
  | 0, st => st
  | n + 1, st => undoN n (undo st)

/-- The 51 pairwise-distinct snapshots 1, 2, ..., 51 pushed in the C1
counterexample run. -/
def c1CounterPushes : List Nat := (List.range 51).map (fun i => i + 1)

-- ===========================================================================
-- Asset service: uploadAsset from src/unnamed/part_003 (assetService.ts)
-- ===========================================================================

/-- JavaScript String.prototype.startsWith, as a structural check on the
character lists of the two strings. -/
def jsStartsWith (s pre : String) : Bool :=
  pre.data.isPrefixOf s.data

/-- uploadAsset from assetService.ts.  The fetch to the backend is
abstracted as an oracle net taking the endpoint, the payload and the prompt
and returning either the stored URL or an error; a thrown error propagates
to the caller (the catch in the source logs and rethrows).  A string that
does not start with data: is returned as is, before any network call. -/
def uploadAsset (net : String → String → String → Except String String)
    (dataUrl : String) (tp : String) (prompt : String) : Except String String :=
  if ¬ jsStartsWith dataUrl "data:" then Except.ok dataUrl
  else
    let endpoint :=
      if tp = "image" then "http://localhost:3001/api/assets/images"
      else "http://localhost:3001/api/assets/videos"
    net endpoint dataUrl prompt

-- ===========================================================================
-- Generation recovery: checkStatus from src/unnamed/part_003
-- (useGenerationRecovery.ts)
-- ===========================================================================

/-- The fields of a canvas node that checkStatus reads.  A JS
undefined/absent generationStartTime is modelled as none. -/
structure NodeData where
  id : String
  generationStartTime : Option Nat
deriving Repr, DecidableEq

/-- The polled status payload: response.ok plus the parsed JSON body.
createdAt is the parsed timestamp in milliseconds; none models an absent
field. -/
structure StatusResponse where
  ok : Bool
  status : String
  resultUrl : Option String
  createdAt : Option Nat
  kind : String
deriving Repr, DecidableEq

/-- The node update written by a successful recovery. -/
structure RecoveryUpdates where
  status : String
  resultUrl : Option String
  errorMessage : Option String
  generationStartTime : Option Nat
  lastFrame : Option String
deriving Repr, DecidableEq

/-- checkStatus from useGenerationRecovery.ts, as the pure decision from
the node list and the polled response to the update passed to updateNode
(none: updateNode is not called).  The asynchronous last-frame extraction
for videos is abstracted as its result extractedLastFrame. -/
def checkStatus (nodes : List NodeData) (nodeId : String)
    (resp : StatusResponse) (extractedLastFrame : Option String) :
    Option RecoveryUpdates :=
  if resp.ok then
    if resp.status = "success" then
      match resp.resultUrl with
      | some url =>
        match nodes.find? (fun n => n.id == nodeId) with
        | some n =>
          match n.generationStartTime, resp.createdAt with
          | some t, some c =>
            if c < t then none
            else some
              { status := "success", resultUrl := some url, errorMessage := none
                generationStartTime := none
                lastFrame := if resp.kind = "video" then extractedLastFrame else none }
          | _, _ => some
              { status := "success", resultUrl := some url, errorMessage := none
                generationStartTime := none
                lastFrame := if resp.kind = "video" then extractedLastFrame else none }
        | none => some
            { status := "success", resultUrl := some url, errorMessage := none
              generationStartTime := none
              lastFrame := if resp.kind = "video" then extractedLastFrame else none }
      | none => none
    else none
  else none

-- ===========================================================================
-- Compositor element passes:
-- src/src/components/modals/ImageEditorModal.tsx
-- ===========================================================================

/-- The element model from imageEditor.types: arrow and text annotations. -/
inductive EditorElement where
  | arrow (id : String) (startX startY endX endY : Int)
      (color : String) (lineWidth : Nat)
  | text (id : String) (x y : Int) (txt : String) (fontSize : Nat)
      (fontFamily : String) (color : String)
deriving Repr, DecidableEq

/-- One canvas draw command issued while rendering elements. -/
inductive RenderOp where
  | arrowStroke (startX startY endX endY : Int) (color : String) (lineWidth : Nat)
  | textFill (txt : String) (x y : Int) (fontSize : Nat)
      (fontFamily : String) (color : String)
deriving Repr, DecidableEq

/-- The draw command for one element: drawArrowWithStyle for an arrow,
fillText with the stored font for a text. -/
def renderElement : EditorElement → RenderOp
  | .arrow _ sx sy ex ey c lw => .arrowStroke sx sy ex ey c lw
  | .text _ x y t fs ff c => .textFill t x y fs ff c

/-- Step 3 of generateCompositeImage: the forEach over elements draws
every arrow and every text, with no check against the editing text id. -/
def compositeElementOps (elements : List EditorElement) : List RenderOp :=
  elements.map renderElement

/-- The elements-canvas redraw effect: arrows are always drawn, a text is
drawn only when its id differs from the active editing text id. -/
def elementsCanvasOps (elements : List EditorElement)
    (editingTextId : Option String) : List RenderOp :=
  elements.filterMap (fun e =>
    match e with
    | .arrow _ _ _ _ _ _ _ => some (renderElement e)
    | .text i _ _ _ _ _ _ =>
        if editingTextId = some i then none else some (renderElement e))

/-- Whether an element is the text element currently being edited. -/
def isEditedText (e : EditorElement) (editingTextId : Option String) : Bool :=
  match e with
  | .text i _ _ _ _ _ _ => editingTextId == some i
  | _ => false

/-- The concrete actively-edited text element of the C2 counterexample. -/
def c2EditingText : EditorElement :=
  .text "t1" 10 20 "hello" 16 "Arial" "#ffffff"

-- ===========================================================================
-- Node persistence: saveCanvasToNode from ImageEditorModal.tsx
-- ===========================================================================

/-- The brush canvas as saveCanvasToNode reads it: its toDataURL payload
and its pixel dimensions. -/
structure CanvasModel where
  dataUrl : String
  width : Nat
  height : Nat
deriving Repr, DecidableEq

/-- The partial node fields written by onUpdate at the end of
saveCanvasToNode.  resultUrl and editorBackgroundUrl are only attached
when the corresponding saved values are nonempty, exactly as the source
guards them. -/
structure SaveUpdates where
  editorCanvasData : String
  editorCanvasSize : Nat × Nat
  resultUrl : Option String
  editorBackgroundUrl : Option String
deriving Repr, DecidableEq

/-- The update record built after the try/catch of saveCanvasToNode from
the three saved values. -/
def saveUpdatesOf (savedCanvasDataUrl savedCompositeUrl savedBackgroundUrl : String)
    (w h : Nat) : SaveUpdates :=
  { editorCanvasData := savedCanvasDataUrl
    editorCanvasSize := (w, h)
    resultUrl := if savedCompositeUrl ≠ "" then some savedCompositeUrl else none
    editorBackgroundUrl :=
      if savedCompositeUrl ≠ "" ∧ savedBackgroundUrl ≠ "" then some savedBackgroundUrl
      else none }

/-- The catch branch of saveCanvasToNode: when no composite was uploaded
yet, regenerate the composite (deterministic, so equal to the composite
argument) and keep its raw payload; then build the update record. -/
def saveCatch (composite : Option String)
    (savedCanvasDataUrl savedCompositeUrl savedBackgroundUrl : String)
    (w h : Nat) : SaveUpdates :=
  let withFallback :=
    if savedCompositeUrl = "" then composite.getD "" else savedCompositeUrl
  saveUpdatesOf savedCanvasDataUrl withFallback savedBackgroundUrl w h

/-- Step 3 of the try block: upload the background when it is still a raw
data URL; a failure there falls to the catch with the values saved so
far. -/
def saveBackgroundStage (net : String → String → String → Except String String)
    (composite : Option String) (localImageUrl : Option String)
    (u1 u2 : String) (w h : Nat) : SaveUpdates :=
  match localImageUrl with
  | some bg =>
    if jsStartsWith bg "data:" then
      match uploadAsset net bg "image" "clean-background" with
      | .error _ => saveCatch composite u1 u2 bg w h
      | .ok u3 => saveUpdatesOf u1 u2 u3 w h
    else saveUpdatesOf u1 u2 bg w h
  | none => saveUpdatesOf u1 u2 "" w h

/-- saveCanvasToNode from ImageEditorModal.tsx.  The generateCompositeImage
result is the composite argument (none when no image is mounted); the
return value is the onUpdate payload, none when the early guard returns,
and an Except layer records whether an error escapes to the caller (the
source catches every upload failure, so it never does). -/
def saveCanvasToNode (net : String → String → String → Except String String)
    (canvas : Option CanvasModel) (nodeId : String)
    (localImageUrl : Option String) (composite : Option String) :
    Except String (Option SaveUpdates) :=
  match canvas with
  | none => Except.ok none
  | some c =>
    if nodeId = "" then Except.ok none
    else
      let canvasData := c.dataUrl
      let w := c.width
      let h := c.height
      let result :=
        match uploadAsset net canvasData "image" "brush-layer" with
        | .error _ => saveCatch composite canvasData "" (localImageUrl.getD "") w h
        | .ok u1 =>
          match composite with
          | some comp =>
            match uploadAsset net comp "image" "composite-result" with
            | .error _ => saveCatch composite u1 "" (localImageUrl.getD "") w h
            | .ok u2 => saveBackgroundStage net composite localImageUrl u1 u2 w h
          | none => saveBackgroundStage net composite localImageUrl u1 "" w h
      Except.ok (some result)

-- ===========================================================================
-- Interaction modes (claim C8)
-- ===========================================================================

/-- The five interaction modes of the editor. -/
inductive EditorMode where
  | draw | arrow | text | select | crop
deriving Repr, DecidableEq

/-- The five mode flags owned by the drawing, arrow, text, selection and
crop hooks. -/
structure ModeFlags where
  isDrawingMode : Bool
  isArrowMode : Bool
  isTextMode : Bool
  isSelectMode : Bool
  isCropMode : Bool
deriving Repr, DecidableEq

/-- Read the flag of one mode. -/
def modeFlag (m : EditorMode) (st : ModeFlags) : Bool :=
  match m with
  | .draw => st.isDrawingMode
  | .arrow => st.isArrowMode
  | .text => st.isTextMode
  | .select => st.isSelectMode
  | .crop => st.isCropMode

/-- Modelled from the spec: the BottomToolbar mode buttons (the toolbar
component and the five mode hooks are not under src/).  Enabling one mode
sets its flag and clears every other mode flag. -/
def activateMode (m : EditorMode) (_st : ModeFlags) : ModeFlags :=
  match m with
  | .draw => ⟨true, false, false, false, false⟩
  | .arrow => ⟨false, true, false, false, false⟩
  | .text => ⟨false, false, true, false, false⟩
  | .select => ⟨false, false, false, true, false⟩
  | .crop => ⟨false, false, false, false, true⟩

/-- Modelled from the spec: clicking an active mode button turns only that
mode off. -/
def deactivateMode (m : EditorMode) (st : ModeFlags) : ModeFlags :=
  match m with
  | .draw => { st with isDrawingMode := false }
  | .arrow => { st with isArrowMode := false }
  | .text => { st with isTextMode := false }
  | .select => { st with isSelectMode := false }
  | .crop => { st with isCropMode := false }

/-- Modelled from the spec: session teardown resets every mode flag. -/
def clearModes (_st : ModeFlags) : ModeFlags :=
  ⟨false, false, false, false, false⟩

/-- One mode interaction. -/
inductive ModeOp where
  | activate (m : EditorMode)
  | deactivate (m : EditorMode)
  | clearAll
deriving Repr, DecidableEq

/-- Apply one mode interaction. -/
def applyModeOp (st : ModeFlags) (op : ModeOp) : ModeFlags :=
  match op with
  | .activate m => activateMode m st
  | .deactivate m => deactivateMode m st
  | .clearAll => clearModes st

/-- How many modes are active. -/
def activeCount (st : ModeFlags) : Nat :=
  (if st.isDrawingMode then 1 else 0) + (if st.isArrowMode then 1 else 0)
    + (if st.isTextMode then 1 else 0) + (if st.isSelectMode then 1 else 0)
    + (if st.isCropMode then 1 else 0)

/-- Run a sequence of mode interactions from the initial all-off state. -/
def runModeOps (ops : List ModeOp) : ModeFlags :=
  ops.foldl applyModeOp ⟨false, false, false, false, false⟩

end TwitCanva

namespace TwitCanva

-- ===========================================================================
-- Claims C4, C5, C10: direct properties of the history operations
-- ===========================================================================

/-- Claim C4: pushing a snapshot structurally identical to the current
present leaves past, present and future all unchanged; the past stack does
not grow and the redo stack is not cleared. -/
theorem c4_push_idempotent {T : Type} [DecidableEq T] (maxHistorySize : Nat)
    (s : T) (st : HistoryState T) (h : s = st.present) :
    pushHistory maxHistorySize s st = st := by
  unfold pushHistory
  simp [h]

/-- Claim C4 witness at a concrete state. -/
theorem c4_push_idempotent_witness :
    pushHistory 50 7 ⟨[1, 2], 7, [9]⟩ = (⟨[1, 2], 7, [9]⟩ : HistoryState Nat) :=
  c4_push_idempotent 50 7 ⟨[1, 2], 7, [9]⟩ rfl

/-- Claim C5: undo on an empty past stack and redo on an empty future stack
are exact no-ops: past, present and future are all left as they were. -/
theorem c5_empty_stack_noops {T : Type} (st : HistoryState T) :
    (st.past = [] → undo st = st) ∧ (st.future = [] → redo st = st) := by
  constructor
  · intro h
    unfold undo
    simp [h]
  · intro h
    unfold redo
    simp [h]

/-- Claim C5 witness at a concrete state with empty stacks. -/
theorem c5_empty_stack_noops_witness :
    undo (⟨[], 3, []⟩ : HistoryState Nat) = ⟨[], 3, []⟩ ∧
      redo (⟨[], 3, []⟩ : HistoryState Nat) = ⟨[], 3, []⟩ :=
  ⟨(c5_empty_stack_noops ⟨[], 3, []⟩).1 rfl,
   (c5_empty_stack_noops ⟨[], 3, []⟩).2 rfl⟩

-- ===========================================================================
-- Claim C6: bounded history
-- ===========================================================================

/-- The slice performed by pushHistory at the default bound 50 keeps the
last 49 entries: it drops all but 49 from the front. -/
lemma jsSlice_at_50 {T : Type} (l : List T) :
    jsSlice l (-((50 : Nat) : Int) + 1) = l.drop (l.length - 49) := by
  unfold jsSlice
  norm_num

/-- One history operation preserves the bound on past plus future. -/
lemma histSum_le_step {T : Type} [DecidableEq T] (st : HistoryState T)
    (op : HistOp T) (h : st.past.length + st.future.length ≤ 50) :
    (applyHistOp 50 st op).past.length + (applyHistOp 50 st op).future.length ≤ 50 := by
  cases op with
  | push s =>
    simp only [applyHistOp, pushHistory]
    by_cases hs : s = st.present
    · simpa [hs] using h
    · rw [if_neg hs]
      simp only [jsSlice_at_50]
      simp [List.length_append, List.length_drop]
      omega
  | undoOp =>
    simp only [applyHistOp, undo]
    cases hp : st.past.getLast? with
    | none => simpa using h
    | some x =>
      have hne : st.past ≠ [] := by
        intro hnil
        rw [hnil] at hp
        simp at hp
      have hpos : 1 ≤ st.past.length := List.length_pos.mpr hne
      simp [List.length_dropLast]
      omega
  | redoOp =>
    simp only [applyHistOp, redo]
    cases hf : st.future with
    | nil => simpa using h
    | cons x rest =>
      rw [hf] at h
      simp at h
      simp [List.length_append]
      omega

/-- The bound on past plus future is preserved by any operation sequence. -/
lemma histSum_le_fold {T : Type} [DecidableEq T] :
    ∀ (ops : List (HistOp T)) (st : HistoryState T),
      st.past.length + st.future.length ≤ 50 →
      (ops.foldl (applyHistOp 50) st).past.length
        + (ops.foldl (applyHistOp 50) st).future.length ≤ 50 := by
  intro ops
  induction ops with
  | nil => intro st h; simpa using h
  | cons op rest ih =>
    intro st h
    simp only [List.foldl_cons]
    exact ih _ (histSum_le_step st op h)

/-- Claim C6: with the default bound maxHistorySize = 50, the past stack
never exceeds 50 entries over any operation sequence from the initial
state, and a push onto a full past stack evicts from the oldest end. -/
theorem c6_bounded_history {T : Type} [DecidableEq T] (initialState : T)
    (ops : List (HistOp T)) :
    (runHistOps 50 initialState ops).past.length ≤ 50 ∧
    (∀ (st : HistoryState T) (s : T), s ≠ st.present → 50 ≤ st.past.length →
      (pushHistory 50 s st).past = st.past.drop (st.past.length - 49) ++ [st.present]) := by
  constructor
  · have h := histSum_le_fold ops (initialHistory initialState)
      (by simp [initialHistory])
    unfold runHistOps
    omega
  · intro st s hs _hlen
    simp only [pushHistory, if_neg hs]
    rw [jsSlice_at_50]

/-- Claim C6 witness: a concrete run stays within the bound, and a concrete
push onto a full 50-entry past stack drops the oldest entry. -/
theorem c6_bounded_history_witness :
    (runHistOps 50 (0 : Nat) [HistOp.push 1]).past.length ≤ 50 ∧
    (pushHistory 50 (2 : Nat) ⟨List.replicate 50 0, 1, []⟩).past
      = (List.replicate 50 (0 : Nat)).drop 1 ++ [1] := by
  refine ⟨(c6_bounded_history 0 [HistOp.push 1]).1, ?_⟩
  have h := (c6_bounded_history (0 : Nat) []).2 ⟨List.replicate 50 0, 1, []⟩ 2
    (by decide) (by simp)
  simpa using h

-- ===========================================================================
-- Claim C1: history round-trip
-- ===========================================================================

/-- When the past stack still fits under the bound, the pushHistory slice
keeps it whole. -/
lemma jsSlice_no_evict {T : Type} (m : Nat) (l : List T) (h : l.length ≤ m - 1) :
    jsSlice l (-(m : Int) + 1) = l := by
  unfold jsSlice
  by_cases h0 : (-(m : Int) + 1) < 0
  · rw [if_pos h0]
    have hnat : (-(m : Int) + 1).natAbs = m - 1 := by omega
    rw [hnat]
    have hz : l.length - (m - 1) = 0 := by omega
    rw [hz]
    exact List.drop_zero l
  · rw [if_neg h0]
    have hm : m ≤ 1 := by omega
    rcases Nat.le_one_iff_eq_zero_or_eq_one.mp hm with rfl | rfl
    · have hl : l = [] := List.eq_nil_of_length_eq_zero
        (Nat.le_zero.mp (by simpa using h))
      subst hl
      simp
    · norm_num

/-- Unfolding one push from a list of pushes. -/
lemma pushList_cons {T : Type} [DecidableEq T] (m : Nat) (x : T) (xs : List T)
    (st : HistoryState T) :
    pushList m (x :: xs) st = pushList m xs (pushHistory m x st) := rfl

/-- Shape of the history state after pushing a list of pairwise-adjacent
distinct snapshots that fits under the bound: the past stack accumulates
every snapshot but the last, the present is the last pushed snapshot, and
the future stack is cleared as soon as one push lands. -/
lemma pushList_eq {T : Type} [DecidableEq T] (m : Nat) :
    ∀ (l : List T) (st : HistoryState T),
      List.Chain' (· ≠ ·) (st.present :: l) →
      st.past.length + l.length ≤ m →
      pushList m l st =
        { past := st.past ++ (st.present :: l).dropLast
          present := l.getLastD st.present
          future := if l.isEmpty then st.future else [] } := by
  intro l
  induction l with
  | nil =>
    intro st _ _
    cases st
    simp [pushList]
  | cons x xs ih =>
    intro st hchain hlen
    rw [List.chain'_cons] at hchain
    obtain ⟨hne, hchain2⟩ := hchain
    have hlen2 : st.past.length + xs.length + 1 ≤ m := by
      simpa [Nat.add_comm, Nat.add_assoc, Nat.add_left_comm] using hlen
    have hstep : pushHistory m x st = ⟨st.past ++ [st.present], x, []⟩ := by
      unfold pushHistory
      rw [if_neg (Ne.symm hne)]
      rw [jsSlice_no_evict m st.past (by omega)]
    rw [pushList_cons, hstep]
    rw [ih ⟨st.past ++ [st.present], x, []⟩ (by simpa using hchain2)
      (by simp; omega)]
    simp only [HistoryState.mk.injEq]
    refine ⟨?_, ?_, ?_⟩
    · simp [List.append_assoc, List.dropLast_cons₂]
    · cases xs with
      | nil => simp
      | cons y ys =>
        have ha : ∃ a, (y :: ys).getLast? = some a :=
          Option.isSome_iff_exists.mp (List.getLast?_isSome.mpr (by simp))
        obtain ⟨a, ha⟩ := ha
        simp [List.getLastD_cons, ha]
    · simp

/-- Putting the last element back after dropLast and getLastD recovers the
original nonempty list. -/
lemma cons_dropLast_getLastD {T : Type} :
    ∀ (l : List T) (a : T), (a :: l).dropLast ++ [l.getLastD a] = a :: l := by
  intro l
  induction l with
  | nil => intro a; simp
  | cons b l2 ih =>
    intro a
    simp only [List.dropLast_cons₂, List.getLastD_cons, List.cons_append]
    rw [ih b]

/-- Effect of undoing exactly as many times as a suffix of the past stack:
the suffix is popped back through the present, one entry at a time. -/
lemma undoN_append {T : Type} :
    ∀ (q p : List T) (s : T) (f : List T),
      undoN q.length ⟨p ++ q, s, f⟩ =
        ⟨p, (q ++ [s]).headD s, (q ++ [s]).tail ++ f⟩ := by
  intro q
  induction q using List.reverseRecOn with
  | nil => intro p s f; simp [undoN]
  | append_singleton q2 b ih =>
    intro p s f
    have hlen : (q2 ++ [b]).length = q2.length + 1 := by simp
    rw [hlen]
    show undoN (q2.length + 1) ⟨p ++ (q2 ++ [b]), s, f⟩ = _
    rw [undoN]
    have hundo : undo ⟨p ++ (q2 ++ [b]), s, f⟩ = ⟨p ++ q2, b, s :: f⟩ := by
      unfold undo
      rw [← List.append_assoc]
      rw [List.getLast?_concat]
      simp [List.dropLast_concat]
    rw [hundo, ih p b (s :: f)]
    cases q2 <;> simp

set_option maxRecDepth 16384 in
/-- Claim C1 counterexample: with the default bound of 50, pushing the 51
snapshots 1..51 (each differing from the then-current present) from initial
snapshot 0 and then undoing 51 times does not restore the present to 0: the
oldest entry was evicted, so the present ends at 1. -/
theorem c1_round_trip_counterexample :
    List.Chain' (· ≠ ·) ((0 : Nat) :: c1CounterPushes) ∧
    c1CounterPushes.length = 51 ∧
    (undoN 51 (pushList 50 c1CounterPushes (initialHistory 0))).present ≠ 0 := by
  refine ⟨?_, by decide, ?_⟩
  · exact List.Pairwise.chain' (by decide : ((0 : Nat) :: c1CounterPushes).Nodup)
  · decide

/-- Claim C1 (amended): the round-trip holds whenever the number of pushes
does not exceed maxHistorySize: pushing N snapshots, each structurally
different from the then-current present, from the initial state and then
undoing N times restores the present snapshot exactly. -/
theorem c1_round_trip_amended {T : Type} [DecidableEq T] (maxHistorySize : Nat)
    (s0 : T) (l : List T) (hchain : List.Chain' (· ≠ ·) (s0 :: l))
    (hlen : l.length ≤ maxHistorySize) :
    (undoN l.length (pushList maxHistorySize l (initialHistory s0))).present = s0 := by
  have hp := pushList_eq maxHistorySize l (initialHistory s0)
    (by simpa [initialHistory] using hchain)
    (by simpa [initialHistory] using hlen)
  rw [hp]
  simp only [initialHistory, List.nil_append, ite_self]
  have hq : ((s0 :: l).dropLast).length = l.length := by
    simp
  rw [← hq]
  have h2 := undoN_append ((s0 :: l).dropLast) [] (l.getLastD s0) []
  simp only [List.nil_append] at h2
  rw [h2]
  rw [cons_dropLast_getLastD l s0]
  simp

/-- Claim C1 witness for the amended statement: two distinct pushes and two
undos from initial snapshot 0 restore 0. -/
theorem c1_round_trip_witness :
    (undoN ([1, 2] : List Nat).length
      (pushList 50 [1, 2] (initialHistory (0 : Nat)))).present = 0 :=
  c1_round_trip_amended 50 0 [1, 2] (by norm_num [List.chain'_cons]) (by decide)

/-- Claim C10: reset(s) unconditionally yields empty past and future stacks
with present s, so canUndo and canRedo are both false afterwards. -/
theorem c10_reset_clears_history {T : Type} (s : T) (st : HistoryState T) :
    reset s st = { past := [], present := s, future := [] } ∧
      ¬ canUndo (reset s st) ∧ ¬ canRedo (reset s st) := by
  refine ⟨rfl, ?_, ?_⟩
  · simp [reset, canUndo]
  · simp [reset, canRedo]

-- ===========================================================================
-- Claim C7: uploadAsset pass-through
-- ===========================================================================

/-- Claim C7: a string that does not start with data: is returned by
uploadAsset unchanged for every network oracle (so no network request is
involved in the result), and feeding the result back into uploadAsset
returns it unchanged again: uploadAsset is idempotent on such values. -/
theorem c7_upload_passthrough (s : String) (h : ¬ jsStartsWith s "data:") :
    ∀ (net net2 : String → String → String → Except String String)
      (tp p tp2 p2 : String),
      uploadAsset net s tp p = Except.ok s ∧
      (uploadAsset net s tp p).bind (fun r => uploadAsset net2 r tp2 p2)
        = Except.ok s := by
  intro net net2 tp p tp2 p2
  have h1 : ∀ (net3 : String → String → String → Except String String)
      (tp3 p3 : String), uploadAsset net3 s tp3 p3 = Except.ok s := by
    intro net3 tp3 p3
    unfold uploadAsset
    rw [if_pos h]
  refine ⟨h1 net tp p, ?_⟩
  rw [h1 net tp p]
  show uploadAsset net2 s tp2 p2 = Except.ok s
  exact h1 net2 tp2 p2

/-- Claim C7 witness: a stored library path passes through an always-failing
network unchanged, twice. -/
theorem c7_upload_passthrough_witness :
    uploadAsset (fun _ _ _ => Except.error "down") "/library/images/xyz.png"
      "image" "" = Except.ok "/library/images/xyz.png" :=
  (c7_upload_passthrough "/library/images/xyz.png" (by decide)
    (fun _ _ _ => Except.error "down") (fun _ _ _ => Except.error "down")
    "image" "" "image" "").1

-- ===========================================================================
-- Claim C9: stale status results are discarded
-- ===========================================================================

/-- Claim C9: when the polled node carries a generationStartTime and the
result's createdAt timestamp is strictly earlier, checkStatus returns no
update at all: updateNode is not called and the node is unchanged. -/
theorem c9_stale_result_discarded (nodes : List NodeData) (nodeId : String)
    (resp : StatusResponse) (lastFrame : Option String) (n : NodeData)
    (t c : Nat)
    (hfind : nodes.find? (fun n2 => n2.id == nodeId) = some n)
    (ht : n.generationStartTime = some t)
    (hc : resp.createdAt = some c)
    (hlt : c < t) :
    checkStatus nodes nodeId resp lastFrame = none := by
  unfold checkStatus
  cases hurl : resp.resultUrl <;> cases hok : resp.ok <;>
    simp [hfind, ht, hc, hlt, hurl, hok]

/-- Claim C9 witness: a node that restarted generation at time 100 ignores
a success result created at time 50. -/
theorem c9_stale_result_discarded_witness :
    checkStatus [⟨"n1", some 100⟩] "n1"
      ⟨true, "success", some "u", some 50, "image"⟩ none = none :=
  c9_stale_result_discarded [⟨"n1", some 100⟩] "n1"
    ⟨true, "success", some "u", some 50, "image"⟩ none ⟨"n1", some 100⟩
    100 50 (by decide) rfl rfl (by decide)

-- ===========================================================================
-- Claim C2: which render pass skips the element being edited
-- ===========================================================================

/-- Claim C2 counterexample: with a single text element whose id is the
active editing id, generateCompositeImage still emits its draw command
(the claim says it is excluded), while the elements-canvas redraw is the
pass that skips it. -/
theorem c2_composite_renders_editing_counterexample :
    compositeElementOps [c2EditingText] = [renderElement c2EditingText] ∧
    renderElement c2EditingText ∈ compositeElementOps [c2EditingText] ∧
    elementsCanvasOps [c2EditingText] (some "t1") = [] := by
  refine ⟨rfl, ?_, ?_⟩
  · simp [compositeElementOps]
  · simp [elementsCanvasOps, c2EditingText]

/-- Claim C2 (amended): generateCompositeImage draws every element,
including the text element currently being edited; the exclusion of the
actively edited text happens in the elements-canvas redraw pass, which
emits exactly the composite draw commands of the elements that are not the
edited text. -/
theorem c2_editing_skip_amended (elements : List EditorElement)
    (editingTextId : Option String) :
    (∀ e ∈ elements, renderElement e ∈ compositeElementOps elements) ∧
    elementsCanvasOps elements editingTextId =
      compositeElementOps
        (elements.filter (fun e => ! isEditedText e editingTextId)) := by
  constructor
  · intro e he
    exact List.mem_map_of_mem renderElement he
  · induction elements with
    | nil => rfl
    | cons e es ih =>
      cases e with
      | arrow i sx sy ex ey col lw =>
        simp [elementsCanvasOps, compositeElementOps, isEditedText,
          List.filterMap_cons, List.filter_cons] at ih ⊢
        exact ih
      | text i x y t fs ff col =>
        by_cases h : editingTextId = some i
        · simp [elementsCanvasOps, compositeElementOps, isEditedText,
            List.filterMap_cons, List.filter_cons, h] at ih ⊢
          exact ih
        · have hb : (editingTextId == some i) = false := by
            simp [h]
          simp [elementsCanvasOps, compositeElementOps, isEditedText,
            List.filterMap_cons, List.filter_cons, h, hb] at ih ⊢
          exact ih

/-- Claim C2 amended-statement witness at a concrete element list. -/
theorem c2_editing_skip_witness :
    renderElement c2EditingText ∈ compositeElementOps [c2EditingText] ∧
    elementsCanvasOps [c2EditingText] none
      = compositeElementOps
          ([c2EditingText].filter (fun e => ! isEditedText e none)) :=
  ⟨(c2_editing_skip_amended [c2EditingText] none).1 c2EditingText
    (by simp),
   (c2_editing_skip_amended [c2EditingText] none).2⟩

-- ===========================================================================
-- Claim C3: upload failure falls back to raw payloads
-- ===========================================================================

/-- Claim C3: when the network rejects every upload during saveCanvasToNode,
the save still completes without an error escaping to the caller, and the
persisted update carries the raw base64 brush-layer data URL and the raw
regenerated composite data URL in place of store references. -/
theorem c3_upload_failure_fallback
    (net : String → String → String → Except String String)
    (c : CanvasModel) (nodeId : String) (bg : Option String) (comp : String)
    (err : String)
    (hid : nodeId ≠ "")
    (hdata : jsStartsWith c.dataUrl "data:" = true)
    (hcomp : comp ≠ "")
    (hnet : ∀ ep d p, net ep d p = Except.error err) :
    saveCanvasToNode net (some c) nodeId bg (some comp) =
      Except.ok (some
        { editorCanvasData := c.dataUrl
          editorCanvasSize := (c.width, c.height)
          resultUrl := some comp
          editorBackgroundUrl :=
            if bg.getD "" ≠ "" then some (bg.getD "") else none }) := by
  have hup : uploadAsset net c.dataUrl "image" "brush-layer"
      = Except.error err := by
    unfold uploadAsset
    rw [if_neg (by simp [hdata])]
    exact hnet _ _ _
  simp only [saveCanvasToNode, hup, if_neg hid]
  simp [saveCatch, saveUpdatesOf, hcomp]

/-- Claim C3 witness: a concrete offline save persists the raw payloads. -/
theorem c3_upload_failure_fallback_witness :
    saveCanvasToNode (fun _ _ _ => Except.error "offline")
      (some ⟨"data:image/png;base64,AAA", 2, 3⟩) "n1" (some "bg1")
      (some "data:image/png;base64,BBB") =
      Except.ok (some
        { editorCanvasData := "data:image/png;base64,AAA"
          editorCanvasSize := (2, 3)
          resultUrl := some "data:image/png;base64,BBB"
          editorBackgroundUrl :=
            if (some "bg1").getD "" ≠ "" then some ((some "bg1").getD "")
            else none }) :=
  c3_upload_failure_fallback (fun _ _ _ => Except.error "offline")
    ⟨"data:image/png;base64,AAA", 2, 3⟩ "n1" (some "bg1")
    "data:image/png;base64,BBB" "offline" (by decide) (by decide) (by decide)
    (fun _ _ _ => rfl)

-- ===========================================================================
-- Claim C8: mode exclusivity (modelled from the spec)
-- ===========================================================================

/-- Deactivating one mode never increases the number of active modes. -/
lemma activeCount_deactivate_le (m : EditorMode) (st : ModeFlags) :
    activeCount (deactivateMode m st) ≤ activeCount st := by
  cases m <;> simp [deactivateMode, activeCount]

/-- One mode interaction preserves the at-most-one-active invariant. -/
lemma activeCount_step_le (st : ModeFlags) (op : ModeOp)
    (h : activeCount st ≤ 1) : activeCount (applyModeOp st op) ≤ 1 := by
  cases op with
  | activate m => cases m <;> simp [applyModeOp, activateMode, activeCount]
  | deactivate m =>
    exact le_trans (activeCount_deactivate_le m st) h
  | clearAll => simp [applyModeOp, clearModes, activeCount]

/-- The invariant holds along every interaction sequence. -/
lemma activeCount_fold_le :
    ∀ (ops : List ModeOp) (st : ModeFlags), activeCount st ≤ 1 →
      activeCount (ops.foldl applyModeOp st) ≤ 1 := by
  intro ops
  induction ops with
  | nil => intro st h; simpa using h
  | cons op rest ih =>
    intro st h
    simp only [List.foldl_cons]
    exact ih _ (activeCount_step_le st op h)

/-- Claim C8: in every reachable editor state at most one of the five
interaction modes is active, and activating any mode leaves every other
mode inactive. -/
theorem c8_mode_exclusivity :
    (∀ ops : List ModeOp, activeCount (runModeOps ops) ≤ 1) ∧
    (∀ (st : ModeFlags) (m m2 : EditorMode), m ≠ m2 →
      modeFlag m2 (activateMode m st) = false) := by
  constructor
  · intro ops
    exact activeCount_fold_le ops ⟨false, false, false, false, false⟩
      (by simp [activeCount])
  · intro st m m2 hne
    cases m <;> cases m2 <;> first
      | exact absurd rfl hne
      | rfl

/-- Claim C8 witness: enabling text mode while draw mode is active leaves
draw mode disabled, and a concrete run stays at most one active. -/
theorem c8_mode_exclusivity_witness :
    activeCount (runModeOps [ModeOp.activate .draw, ModeOp.activate .text]) ≤ 1 ∧
    modeFlag .draw (activateMode .text ⟨true, false, false, false, false⟩) = false :=
  ⟨c8_mode_exclusivity.1 [ModeOp.activate .draw, ModeOp.activate .text],
   c8_mode_exclusivity.2 ⟨true, false, false, false, false⟩ .text .draw
     (by decide)⟩

end TwitCanva
